import Mathlib

/-!
# Verification of the ATS Resume Analyzer backend

Shallow embedding of the analysis pipeline of `src/backend`
(`parser.py`, `analyzer.py`, `scorer.py`, `feedback.py`, `app.py`) in Lean 4,
together with theorems settling the specification claims.

Modelling conventions:
* Python strings are `String` / `List Char`; all texts handled by the claims
  are ASCII, so `Char.toLower`, `Char.isAlpha`, … agree with Python's
  `str.lower`, `str.isalpha` on the relevant inputs.
* Python machine floats are modelled exactly over `ℚ`; `round(x, 2)` is
  modelled as round-half-to-even of `100·x` divided by `100`.
* Python `dict`s with the fixed ten section keys are modelled as a structure
  with ten fields; iteration order is the insertion order of the source.
* `list.sort(key=…)` (a stable sort) on a key ranging over `{0,1,2,3}` is
  modelled extensionally as concatenation of the four key-filtered sublists,
  which is the unique stable result.
-/

namespace ATS

/-! ## Character and string utilities (Python `str` methods, `re` basics) -/

/-- Python's whitespace set for `str.strip`, `str.split` and regex `\s`
(ASCII fragment: space, tab, newline, carriage return, vertical tab, form feed). -/
def isPySpace (c : Char) : Bool :=
  c == ' ' || c == '\t' || c == '\n' || c == '\r' || c == '\x0b' || c == '\x0c'

/-- Regex `\w` (ASCII fragment): letters, digits, underscore. -/
def isWordChar (c : Char) : Bool :=
  c.isAlphanum || c == '_'

/-- `str.strip()`: drop leading and trailing whitespace. -/
def stripL (t : List Char) : List Char :=
  ((t.dropWhile isPySpace).reverse.dropWhile isPySpace).reverse

/-- `str.split('\n')`: split at every newline; never returns an empty list. -/
def splitNl : List Char → List (List Char)
  | [] => [[]]
  | c :: rest =>
    if c == '\n' then [] :: splitNl rest
    else
      match splitNl rest with
      | [] => [[c]]
      | h :: t => (c :: h) :: t

/-- `str.split()` (no argument): split on runs of whitespace, dropping
empty pieces. -/
def splitWs : List Char → List (List Char)
  | [] => []
  | c :: rest =>
    let r := splitWs rest
    if isPySpace c then r
    else
      match rest with
      | [] => [[c]]
      | d :: _ =>
        if isPySpace d then [c] :: r
        else
          match r with
          | [] => [[c]]
          | h :: t => (c :: h) :: t

/-- `len(text.split())`, the Python word count. -/
def wordCount (t : List Char) : Nat :=
  (splitWs t).length

/-- Lowercase a character list (`str.lower()`, ASCII fragment). -/
def lowerL (t : List Char) : List Char :=
  t.map Char.toLower

/-- Literal prefix test: does `lit` occur at the head of `rest`? -/
def litAt : List Char → List Char → Bool
  | [], _ => true
  | _ :: _, [] => false
  | a :: as, b :: bs => a == b && litAt as bs

/-- Word-character status of an optional character (absent = not a word char),
used for regex `\b`. -/
def optWord : Option Char → Bool
  | some c => isWordChar c
  | none => false

/-- Regex `\b` holds at offset `i` of `t`: exactly one of the two adjacent
positions holds a word character. -/
def boundaryAt (t : List Char) (i : Nat) : Bool :=
  let prev : Option Char := if i = 0 then none else t.get? (i - 1)
  optWord prev != optWord (t.get? i)

/-- `re.search(r'\b' + re.escape(lit) + r'\b', t)` as a Boolean: the literal
occurs somewhere in `t` with word boundaries on both sides. -/
def wbSearch (lit t : List Char) : Bool :=
  (List.range (t.length + 1)).any fun i =>
    boundaryAt t i && litAt lit (t.drop i) && boundaryAt t (i + lit.length)

/-! ## `analyzer.py`: vocabularies -/

/-- `COMMON_SKILLS['programming']`. -/
def skillsProgramming : List String :=
  ["python", "java", "javascript", "typescript", "c", "cpp", "csharp", "ruby", "php", "swift",
   "kotlin", "go", "rust", "scala", "r", "matlab", "perl", "shell", "bash", "powershell"]

/-- `COMMON_SKILLS['web']`. -/
def skillsWeb : List String :=
  ["html", "css", "react", "angular", "vue", "nodejs", "express", "django", "flask", "fastapi",
   "spring", "asp.net", "jquery", "bootstrap", "tailwind", "sass", "webpack", "nextjs", "gatsby"]

/-- `COMMON_SKILLS['database']`. -/
def skillsDatabase : List String :=
  ["sql", "mysql", "postgresql", "mongodb", "redis", "cassandra", "oracle", "sqlite",
   "dynamodb", "elasticsearch", "neo4j", "firebase", "mariadb"]

/-- `COMMON_SKILLS['cloud']`. -/
def skillsCloud : List String :=
  ["aws", "azure", "gcp", "google cloud platform", "amazon web services", "docker", "kubernetes",
   "terraform", "ansible", "jenkins", "gitlab", "github actions", "circleci", "heroku"]

/-- `COMMON_SKILLS['data_science']`. -/
def skillsDataScience : List String :=
  ["machine learning", "deep learning", "artificial intelligence", "natural language processing",
   "computer vision", "tensorflow", "pytorch", "keras", "scikit-learn", "pandas", "numpy",
   "matplotlib", "seaborn", "tableau", "power bi", "spark", "hadoop", "data analysis"]

/-- `COMMON_SKILLS['mobile']`. -/
def skillsMobile : List String :=
  ["android", "ios", "react native", "flutter", "xamarin", "swift", "kotlin", "mobile development"]

/-- `COMMON_SKILLS['soft_skills']`. -/
def skillsSoft : List String :=
  ["leadership", "communication", "teamwork", "problem solving", "analytical", "critical thinking",
   "time management", "project management", "agile", "scrum", "collaboration", "presentation"]

/-- The flat `all_skills` list built in `calculate_skill_density` /
`find_skill_overlap`: the category lists concatenated in the dictionary's
insertion order.  Note `swift` and `kotlin` occur twice (programming and
mobile). -/
def allSkills : List String :=
  skillsProgramming ++ skillsWeb ++ skillsDatabase ++ skillsCloud ++
    skillsDataScience ++ skillsMobile ++ skillsSoft

/-- `ACTION_VERBS`. -/
def ACTION_VERBS : List String :=
  ["achieved", "accomplished", "administered", "analyzed", "architected", "automated", "built",
   "collaborated", "created", "delivered", "designed", "developed", "directed", "drove",
   "enhanced", "established", "executed", "generated", "implemented", "improved", "increased",
   "initiated", "launched", "led", "managed", "optimized", "orchestrated", "organized",
   "pioneered", "planned", "produced", "reduced", "resolved", "spearheaded", "streamlined",
   "strengthened", "transformed", "upgraded"]

/-! ## `analyzer.py`: skill density and action verbs -/

/-- Result of `calculate_skill_density`. -/
structure SkillAnalysis where
  found_skills : List String
  skill_count : Nat
  density_score : Nat
  deriving Repr, DecidableEq

/-- `calculate_skill_density(text, sections)` (the `sections` argument is
never used by the function body and is omitted): lowercase the text, collect
every vocabulary entry that occurs with word boundaries, and bucket the
count. -/
def calculate_skill_density (text : String) : SkillAnalysis :=
  let tl := lowerL text.data
  let found := allSkills.filter fun s => wbSearch s.data tl
  { found_skills := found
    skill_count := found.length
    density_score :=
      if found.length ≥ 15 then 95
      else if found.length ≥ 10 then 80
      else if found.length ≥ 5 then 60
      else 30 }

/-- Result of `detect_action_verbs`. -/
structure VerbAnalysis where
  found_verbs : List String
  verb_count : Nat
  verb_score : Nat
  observation : String
  deriving Repr, DecidableEq

/-- `detect_action_verbs(text)`. -/
def detect_action_verbs (text : String) : VerbAnalysis :=
  let tl := lowerL text.data
  let found := ACTION_VERBS.filter fun v => wbSearch v.data tl
  { found_verbs := found
    verb_count := found.length
    verb_score :=
      if found.length ≥ 10 then 95
      else if found.length ≥ 6 then 80
      else if found.length ≥ 3 then 60
      else 30
    observation :=
      if found.length ≥ 10 then "Excellent use of action verbs"
      else if found.length ≥ 6 then "Good action verb usage"
      else if found.length ≥ 3 then "Moderate action verb usage"
      else "Limited action verbs" }

/-! ## `analyzer.py`: ATS compatibility checker -/

/-- The box-drawing characters of the character class in
`check_ats_compatibility`. -/
def boxChars : List Char :=
  ['│', '┤', '├', '┼', '┬', '┴', '╪', '═', '║', '╔', '╗', '╚', '╝']

/-- `len(re.findall(r'[│┤├┼┬┴╪═║╔╗╚╝]', text))`: number of box-drawing
characters in the text. -/
def specialCharCount (t : List Char) : Nat :=
  (t.filter fun c => boxChars.contains c).length

/-- Number of lines whose stripped length is strictly between 0 and 20. -/
def shortLineCount (t : List Char) : Nat :=
  (splitNl t).countP fun l => 0 < (stripL l).length && (stripL l).length < 20

/-- `str.isupper()` (ASCII fragment): at least one cased character and no
lowercase cased character. -/
def isUpperPy (t : List Char) : Bool :=
  t.any Char.isAlpha && t.all fun c => !c.isAlpha || c.isUpper

/-- Result of `check_ats_compatibility`. -/
structure CompatResult where
  score : Int
  issues : List String
  is_compatible : Bool
  deriving Repr, DecidableEq

/-- The short-line check `short_lines > len(lines) * 0.3`.  For every line
count `n`, the double `n * 0.3` compares to the integer `short_lines` exactly
as the rational `3n/10` does (the relative error of the product is below half
an ulp and `3n/10` is never within half an ulp of a different integer), so
the float comparison is embedded as `10 * short > 3 * n`. -/
def shortLineTrigger (t : List Char) : Bool :=
  10 * shortLineCount t > 3 * (splitNl t).length

/-- `check_ats_compatibility(text)`: four checks in fixed order, penalties
subtracted from 100, final score clamped to `≥ 0`; `is_compatible` compares
the unclamped score with 70 (as the source does, reading the local `score`
variable before the clamp). -/
def check_ats_compatibility (text : String) : CompatResult :=
  let t := text.data
  let c1 := specialCharCount t > 10
  let c2 := shortLineTrigger t
  let c3 := isUpperPy t
  let wc := wordCount t
  let raw : Int := 100 - (if c1 then 20 else 0) - (if c2 then 15 else 0) -
    (if c3 then 10 else 0) - (if wc < 100 then 20 else if wc > 1500 then 10 else 0)
  { score := max raw 0
    issues :=
      (if c1 then ["Contains table formatting that may not parse well"] else []) ++
      (if c2 then ["Multiple short lines detected - avoid multi-column layouts"] else []) ++
      (if c3 then ["Excessive capitalization - use mixed case"] else []) ++
      (if wc < 100 then ["Resume appears too short"]
       else if wc > 1500 then ["Resume may be too long - consider condensing"] else [])
    is_compatible := raw ≥ 70 }

/-! ## Python `round(x, 2)` over `ℚ` -/

/-- Round half to even to an integer. -/
def rhe (q : ℚ) : Int :=
  if q - ⌊q⌋ < 1 / 2 then ⌊q⌋
  else if 1 / 2 < q - ⌊q⌋ then ⌊q⌋ + 1
  else if ⌊q⌋ % 2 = 0 then ⌊q⌋ else ⌊q⌋ + 1

/-- `round(x, 2)` modelled over `ℚ`: round `100·x` half to even, divide by
100. -/
def round2 (q : ℚ) : ℚ :=
  (rhe (q * 100) : ℚ) / 100

theorem floor_le_rhe (q : ℚ) : ⌊q⌋ ≤ rhe q := by
  unfold rhe
  split_ifs <;> omega

theorem rhe_le_ceil (q : ℚ) : rhe q ≤ ⌈q⌉ := by
  unfold rhe
  split_ifs with h1 h2 h3
  · exact Int.floor_le_ceil q
  all_goals
  · have hq : (⌊q⌋ : ℚ) < q := by
      have : (0 : ℚ) < q - ⌊q⌋ := by linarith
      linarith
    have := Int.lt_ceil.mpr hq
    omega

theorem round2_nonneg {q : ℚ} (h : 0 ≤ q) : 0 ≤ round2 q := by
  unfold round2
  have h1 : (0 : Int) ≤ ⌊q * 100⌋ := Int.floor_nonneg.mpr (by positivity)
  have h2 := floor_le_rhe (q * 100)
  have : (0 : ℚ) ≤ (rhe (q * 100) : ℚ) := by exact_mod_cast le_trans h1 h2
  positivity

/-- If `q ≤ n` for an integer bound `n`, then `round2 q ≤ n`. -/
theorem round2_le_intBound {q : ℚ} {n : Int} (h : q ≤ (n : ℚ)) : round2 q ≤ (n : ℚ) := by
  unfold round2
  have h1 := rhe_le_ceil (q * 100)
  have h2 : ⌈q * 100⌉ ≤ n * 100 := by
    rw [Int.ceil_le]
    push_cast
    nlinarith
  have : (rhe (q * 100) : ℚ) ≤ ((n * 100 : Int) : ℚ) := by exact_mod_cast le_trans h1 h2
  push_cast at this
  linarith

/-! ## `analyzer.py`: skill overlap with a job description -/

/-- Result of `find_skill_overlap`.  Python builds `set`s and converts them
to lists in unspecified iteration order; the embedding uses the deduplicated
vocabulary-ordered lists, whose membership and length agree with the sets. -/
structure SkillOverlap where
  resume_skills : List String
  jd_skills : List String
  matching_skills : List String
  missing_skills : List String
  overlap_percentage : ℚ
  deriving Repr, DecidableEq

/-- `find_skill_overlap(resume_text, jd_text)`. -/
def find_skill_overlap (resume_text jd_text : String) : SkillOverlap :=
  let rl := lowerL resume_text.data
  let jl := lowerL jd_text.data
  let resumeSkills := (allSkills.filter fun s => wbSearch s.data rl).dedup
  let jdSkills := (allSkills.filter fun s => wbSearch s.data jl).dedup
  let matching := jdSkills.filter fun s => s ∈ resumeSkills
  let missing := jdSkills.filter fun s => s ∉ resumeSkills
  { resume_skills := resumeSkills
    jd_skills := jdSkills
    matching_skills := matching
    missing_skills := missing
    overlap_percentage :=
      if jdSkills.length > 0 then
        round2 ((matching.length : ℚ) / (jdSkills.length : ℚ) * 100)
      else 0 }

/-! ## `scorer.py`: JD match -/

/-- `calculate_jd_match(tfidf_similarity, skill_overlap)`; the TF-IDF cosine
similarity is produced by an external library call
(`compute_tfidf_similarity`) and enters here as a number. -/
def calculate_jd_match (tfidf_similarity : ℚ) (skill_overlap : SkillOverlap) : ℚ :=
  round2 (tfidf_similarity * 0.60 + skill_overlap.overlap_percentage * 0.40)

/-! ## Section data model

`detect_sections` returns a `dict` with a fixed closed set of ten keys in a
fixed insertion order (`objective, summary, skills, education, experience,
internships, projects, achievements, certifications, contact`); no code path
ever adds or removes keys.  The dict is embedded as a structure with ten
fields, iterated in that insertion order. -/

/-- The ten section names. -/
inductive SName where
  | objective | summary | skills | education | experience
  | internships | projects | achievements | certifications | contact
  deriving Repr, DecidableEq

/-- The Python name string of a section. -/
def SName.str : SName → String
  | .objective => "objective"
  | .summary => "summary"
  | .skills => "skills"
  | .education => "education"
  | .experience => "experience"
  | .internships => "internships"
  | .projects => "projects"
  | .achievements => "achievements"
  | .certifications => "certifications"
  | .contact => "contact"

/-- Rank of a section name in the alphabetical order of the Python name
strings; used to embed Python's lexicographic tuple comparison in
`section_positions.sort()`. -/
def SName.alphaRank : SName → Nat
  | .achievements => 0
  | .certifications => 1
  | .contact => 2
  | .education => 3
  | .experience => 4
  | .internships => 5
  | .objective => 6
  | .projects => 7
  | .skills => 8
  | .summary => 9

/-- The `sections` dictionary of `detect_sections` (content per name). -/
structure Sections where
  objective : String
  summary : String
  skills : String
  education : String
  experience : String
  internships : String
  projects : String
  achievements : String
  certifications : String
  contact : String
  deriving Repr, DecidableEq

/-- The initial dictionary: every section maps to the empty string. -/
def initialSections : Sections :=
  ⟨"", "", "", "", "", "", "", "", "", ""⟩

/-- `sections[name]`. -/
def getSection (s : Sections) : SName → String
  | .objective => s.objective
  | .summary => s.summary
  | .skills => s.skills
  | .education => s.education
  | .experience => s.experience
  | .internships => s.internships
  | .projects => s.projects
  | .achievements => s.achievements
  | .certifications => s.certifications
  | .contact => s.contact

/-- `sections[name] = content` (plain overwrite). -/
def setSection (s : Sections) (n : SName) (v : String) : Sections :=
  match n with
  | .objective => { s with objective := v }
  | .summary => { s with summary := v }
  | .skills => { s with skills := v }
  | .education => { s with education := v }
  | .experience => { s with experience := v }
  | .internships => { s with internships := v }
  | .projects => { s with projects := v }
  | .achievements => { s with achievements := v }
  | .certifications => { s with certifications := v }
  | .contact => { s with contact := v }

/-! ## `analyzer.py`: `analyze_sections` -/

/-- One value of the `analysis` dictionary of `analyze_sections`. -/
structure SectionEntry where
  present : Bool
  importance : String
  score : Nat
  observation : String
  word_count : Nat
  deriving Repr, DecidableEq

/-- The importance assigned by `analyze_sections` (membership in the
`critical_sections` / `important_sections` lists). -/
def importanceOf : SName → String
  | .skills | .education | .experience => "critical"
  | .objective | .summary | .projects => "important"
  | _ => "optional"

/-- The section-specific quality score and observation computed inside the
`if is_present` branch of `analyze_sections`. -/
def sectionQuality (name : SName) (content : String) : Nat × String :=
  let wc := wordCount content.data
  match name with
  | .skills =>
    let cnt := (content.data.filter fun c =>
      c == ',' || c == '\n' || c == '•' || c == '-').length + 1
    if cnt ≥ 10 then (90, "Strong technical skills listed")
    else if cnt ≥ 5 then (70, "Good skills coverage")
    else (50, "Limited skills listed")
  | .experience | .internships =>
    if wc ≥ 100 then (90, "Well-detailed experience")
    else if wc ≥ 50 then (70, "Adequate experience details")
    else (50, "Brief experience description")
  | .education =>
    if wc ≥ 20 then (85, "Complete education details")
    else (60, "Basic education info")
  | .projects =>
    if wc ≥ 50 then (85, "Strong projects section")
    else (60, "Brief projects description")
  | .achievements =>
    if wc ≥ 50 then (85, "Strong achievements section")
    else (60, "Brief achievements description")
  | _ =>
    if wc ≥ 20 then (70, "Section present")
    else (50, "Section present")

/-- One loop iteration of `analyze_sections` for a single section. -/
def mkEntry (name : SName) (content : String) : SectionEntry :=
  let isP := content ≠ "" && (stripL content.data).length > 10
  { present := isP
    importance := importanceOf name
    score := if isP then (sectionQuality name content).1 else 0
    observation := if isP then (sectionQuality name content).2 else "Section missing"
    word_count := if isP then wordCount content.data else 0 }

/-- The `analysis` dictionary of `analyze_sections` (same ten keys, same
order as `sections`). -/
structure SectionAnalysis where
  objective : SectionEntry
  summary : SectionEntry
  skills : SectionEntry
  education : SectionEntry
  experience : SectionEntry
  internships : SectionEntry
  projects : SectionEntry
  achievements : SectionEntry
  certifications : SectionEntry
  contact : SectionEntry
  deriving Repr, DecidableEq

/-- `analyze_sections(sections)`. -/
def analyze_sections (s : Sections) : SectionAnalysis where
  objective := mkEntry .objective s.objective
  summary := mkEntry .summary s.summary
  skills := mkEntry .skills s.skills
  education := mkEntry .education s.education
  experience := mkEntry .experience s.experience
  internships := mkEntry .internships s.internships
  projects := mkEntry .projects s.projects
  achievements := mkEntry .achievements s.achievements
  certifications := mkEntry .certifications s.certifications
  contact := mkEntry .contact s.contact

/-- The `(name, entry)` pairs of a section analysis in dictionary iteration
order. -/
def entriesList (sa : SectionAnalysis) : List (SName × SectionEntry) :=
  [(.objective, sa.objective), (.summary, sa.summary), (.skills, sa.skills),
   (.education, sa.education), (.experience, sa.experience),
   (.internships, sa.internships), (.projects, sa.projects),
   (.achievements, sa.achievements), (.certifications, sa.certifications),
   (.contact, sa.contact)]

/-- The entry of a section analysis for a given name. -/
def getEntry (sa : SectionAnalysis) : SName → SectionEntry
  | .objective => sa.objective
  | .summary => sa.summary
  | .skills => sa.skills
  | .education => sa.education
  | .experience => sa.experience
  | .internships => sa.internships
  | .projects => sa.projects
  | .achievements => sa.achievements
  | .certifications => sa.certifications
  | .contact => sa.contact

/-! ## `scorer.py`: ATS score and section scores -/

/-- The weight chosen in the loop of `calculate_ats_score` (membership in
`critical_sections` / `important_sections`). -/
def weightOf : SName → Nat
  | .skills | .education | .experience => 10
  | .objective | .summary | .projects => 5
  | _ => 2

/-- `calculate_ats_score(section_analysis, skill_analysis, verb_analysis,
ats_compatibility)`: weighted section completeness blended with the three
other scores and rounded to two decimals. -/
def calculate_ats_score (sa : SectionAnalysis) (sk : SkillAnalysis)
    (vb : VerbAnalysis) (cp : CompatResult) : ℚ :=
  let acc := (entriesList sa).foldl
    (fun (acc : ℚ × ℚ) pr =>
      (acc.1 + (pr.2.score : ℚ) * (weightOf pr.1 : ℚ), acc.2 + (weightOf pr.1 : ℚ)))
    (0, 0)
  let section_completeness := if acc.2 > 0 then acc.1 / acc.2 else 0
  round2 (section_completeness * 0.30 + (sk.density_score : ℚ) * 0.25 +
    (vb.verb_score : ℚ) * 0.20 + (cp.score : ℚ) * 0.25)

/-- One output value of `generate_section_scores`. -/
structure DisplayEntry where
  present : Bool
  score : Nat
  observation : String
  importance : String
  deriving Repr, DecidableEq

/-- `generate_section_scores(section_analysis)`: keep a section's entry iff
it is present or its importance is critical or important. -/
def generate_section_scores (sa : SectionAnalysis) : List (SName × DisplayEntry) :=
  ((entriesList sa).filter fun pr =>
      pr.2.present || (pr.2.importance == "critical" || pr.2.importance == "important")).map
    fun pr => (pr.1, ⟨pr.2.present, pr.2.score, pr.2.observation, pr.2.importance⟩)

/-! ## `parser.py`: `normalize_skills` -/

/-- One scan step of `re.sub(r'\b' + re.escape(abbrev) + r'\b', full, t)`:
left-to-right, non-overlapping; after a replacement the scan resumes past the
matched text of the original string (the last matched character stays the
left context of the following boundary test).  `fuel` bounds the recursion;
it is initialised with the text length, which suffices because every step
consumes at least one character of `rest` (the literal is nonempty). -/
def subAux (lit repl : List Char) : Option Char → List Char → Nat → List Char
  | _, rest, 0 => rest
  | _, [], _ => []
  | prev, c :: cs, fuel + 1 =>
    if (optWord prev != optWord (some c)) && litAt lit (c :: cs) &&
        (optWord ((c :: cs).get? (lit.length - 1)) != optWord ((c :: cs).get? lit.length)) then
      repl ++ subAux lit repl lit.getLast? ((c :: cs).drop lit.length) fuel
    else
      c :: subAux lit repl (some c) cs fuel

/-- `re.sub` of a whole-word literal over a full text. -/
def subWordAll (lit repl t : List Char) : List Char :=
  subAux lit repl none t t.length

/-- The `skill_synonyms` table of `normalize_skills`, in dictionary insertion
order. -/
def skillSynonyms : List (String × String) :=
  [("ml", "machine learning"), ("ai", "artificial intelligence"), ("dl", "deep learning"),
   ("nlp", "natural language processing"), ("js", "javascript"), ("ts", "typescript"),
   ("py", "python"), ("react.js", "react"), ("node.js", "nodejs"), ("vue.js", "vue"),
   ("angular.js", "angular"), ("c++", "cpp"), ("c#", "csharp"), ("db", "database"),
   ("rdbms", "relational database"), ("nosql", "non-relational database"),
   ("aws", "amazon web services"), ("gcp", "google cloud platform"), ("k8s", "kubernetes"),
   ("ci/cd", "continuous integration continuous deployment"),
   ("devops", "development operations"), ("ui/ux", "user interface user experience")]

/-- `normalize_skills(text)`: lowercase once, then apply the whole-word
substitutions sequentially in table order. -/
def normalize_skills (text : String) : String :=
  ⟨skillSynonyms.foldl (fun t pr => subWordAll pr.1.data pr.2.data t) (lowerL text.data)⟩

/-! ## `parser.py`: `detect_sections`

Each header pattern has the shape
`(?:^|\n)\s*(?:alt₁|alt₂|…)\s*[:\n]` compiled with `IGNORECASE | MULTILINE`.
The alternatives are literal phrases, except for an optional trailing `s?`,
which is expanded here into two literals in the backtracking order (with the
`s` first, since `?` is greedy).  `matchAt` implements the backtracking
matcher for this pattern shape at one start position, and `scanAux` the
non-overlapping left-to-right scan of `re.finditer`. -/

/-- The alternative literals of each section pattern, in the pattern's
alternation/backtracking order. -/
def altsOf : SName → List String
  | .objective => ["objective", "career objective", "professional objective"]
  | .summary => ["summary", "professional summary", "profile", "about me"]
  | .skills => ["skills", "technical skills", "core competencies", "expertise", "technologies"]
  | .education => ["education", "academic background", "qualifications"]
  | .experience =>
    ["experience", "work experience", "professional experience", "employment history"]
  | .internships => ["internships", "internship", "internship experience"]
  | .projects =>
    ["projects", "project", "academic projects", "academic project",
     "personal projects", "personal project"]
  | .achievements =>
    ["achievements", "achievement", "accomplishments", "accomplishment",
     "awards", "award", "honors", "honor"]
  | .certifications =>
    ["certifications", "certification", "certificates", "certificate",
     "licenses", "license"]
  | .contact => ["contact", "contact information", "personal details"]

/-- Length of the whitespace run of `t` starting at offset `q` (regex `\s`). -/
def wsRunAt (t : List Char) (q : Nat) : Nat :=
  ((t.drop q).takeWhile isPySpace).length

/-- `n-1, n-2, …, 0`: the greedy backtracking order of `\s*`. -/
def rangeRev (n : Nat) : List Nat :=
  (List.range n).reverse

/-- Does the pattern match starting exactly at position `p` of the lowered
text `tl`?  Returns the end position of the first match in backtracking
order (anchor `^` before `\n`; longer whitespace runs first; alternatives in
order).  Only start and end positions are observable downstream. -/
def matchAt (tl : List Char) (alts : List (List Char)) (p : Nat) : Option Nat :=
  let tryFrom : Nat → Option Nat := fun q =>
    (rangeRev (wsRunAt tl q + 1)).findSome? fun k =>
      alts.findSome? fun L =>
        if litAt L (tl.drop (q + k)) then
          let q2 := q + k + L.length
          (rangeRev (wsRunAt tl q2 + 1)).findSome? fun j =>
            match tl.get? (q2 + j) with
            | some c => if c == ':' || c == '\n' then some (q2 + j + 1) else none
            | none => none
        else none
  let viaCaret :=
    if p = 0 || tl.get? (p - 1) == some '\n' then tryFrom p else none
  match viaCaret with
  | some e => some e
  | none => if tl.get? p == some '\n' then tryFrom (p + 1) else none

/-- The non-overlapping scan of `re.finditer`: try every position from left
to right, resume after each match's end.  Returns the match start
positions. -/
def scanAux (tl : List Char) (alts : List (List Char)) : Nat → Nat → List Nat
  | _, 0 => []
  | pos, fuel + 1 =>
    if pos > tl.length then []
    else
      match matchAt tl alts pos with
      | some e => pos :: scanAux tl alts (max e (pos + 1)) fuel
      | none => scanAux tl alts (pos + 1) fuel

/-- Start positions of all matches of one section's pattern in the lowered
text. -/
def matchesFor (tl : List Char) (name : SName) : List Nat :=
  scanAux tl ((altsOf name).map String.data) 0 (tl.length + 2)

/-- The iteration order of the `section_patterns` dictionary. -/
def patternOrder : List SName :=
  [.objective, .summary, .skills, .education, .experience,
   .internships, .projects, .achievements, .certifications, .contact]

/-- All `(start, name)` pairs, appended per pattern in dictionary order. -/
def allMatches (tl : List Char) : List (Nat × SName) :=
  (patternOrder.map fun n => (matchesFor tl n).map fun p => (p, n)).flatten

/-- Lexicographic order on `(start, name)` pairs: Python's
`section_positions.sort()` compares the tuples by start position first and
by the name string (alphabetically) second. -/
def pairLe (a b : Nat × SName) : Prop :=
  a.1 < b.1 ∨ (a.1 = b.1 ∧ a.2.alphaRank ≤ b.2.alphaRank)

instance : DecidableRel pairLe := fun a b => by
  unfold pairLe
  infer_instance

instance : IsTotal (Nat × SName) pairLe where
  total a b := by
    unfold pairLe
    omega

instance : IsTrans (Nat × SName) pairLe where
  trans a b c hab hbc := by
    unfold pairLe at *
    omega

/-- The sorted `section_positions` list.  Any sorting algorithm yields the
same list here, since `pairLe` is total, transitive and antisymmetric on the
pairs (two identical `(start, name)` pairs never occur: starts of one
pattern's matches are strictly increasing). -/
def sortedMatches (text : String) : List (Nat × SName) :=
  List.insertionSort pairLe (allMatches (lowerL text.data))

/-- `'\n'.join`. -/
def joinNl (ls : List (List Char)) : List Char :=
  List.intercalate ['\n'] ls

/-- The content assigned for the `i`-th entry of the sorted match list:
the slice of the original text from this match's start to the next match's
start (or the end of text), stripped, with its first line removed, stripped
again. -/
def contentFor (text : String) (sm : List (Nat × SName)) (i : Nat) : String :=
  match sm.get? i with
  | none => ""
  | some pr =>
    let t := text.data
    let stop :=
      match sm.get? (i + 1) with
      | some nxt => nxt.1
      | none => t.length
    let content := stripL ((t.take stop).drop pr.1)
    ⟨stripL (joinNl (splitNl content).tail)⟩

/-- `detect_sections(text)`: assign each match's content in sorted order
(plain overwrite on repeated names). -/
def detect_sections (text : String) : Sections :=
  let sm := sortedMatches text
  sm.enum.foldl (fun secs pr => setSection secs pr.2.2 (contentFor text sm pr.1))
    initialSections

/-! ## `app.py`: the ATS-score dataflow of `analyze_resume` -/

/-- The ATS score computed by the `/api/analyze` endpoint for a résumé
text: sections are detected on the raw text, skill density runs on the
abbreviation-expanded text, action verbs and the compatibility check run on
the raw text (`app.py`, lines 101–126). -/
def analyze_resume_ats_score (text : String) : ℚ :=
  calculate_ats_score (analyze_sections (detect_sections text))
    (calculate_skill_density (normalize_skills text))
    (detect_action_verbs text)
    (check_ats_compatibility text)

/-! ## `feedback.py`: `generate_recommendations` -/

/-- One recommendation. -/
structure Recommendation where
  priority : String
  category : String
  message : String
  deriving Repr, DecidableEq

/-- The `jd_analysis` dictionary passed from `app.py` to
`generate_recommendations` (keys `overlap_percentage`, `missing_skills`). -/
structure JdAnalysis where
  overlap_percentage : ℚ
  missing_skills : List String
  deriving Repr, DecidableEq

/-- `priority_order.get(priority, 3)`: the sort key of the final
`recommendations.sort`. -/
def rank (p : String) : Nat :=
  if p = "critical" then 0
  else if p = "important" then 1
  else if p = "suggested" then 2
  else 3

/-- `', '.join` of the first five missing skills. -/
def joinTop5 (skills : List String) : String :=
  String.intercalate ", " (skills.take 5)

/-- The recommendation list as generated by the rule sequence of
`generate_recommendations`, before the final sort. -/
def generatedRecs (ats_score : ℚ) (sa : SectionAnalysis) (sk : SkillAnalysis)
    (vb : VerbAnalysis) (cp : CompatResult) (jd : Option JdAnalysis) :
    List Recommendation :=
  (if !sa.skills.present then
    [⟨"critical", "missing_section",
      "Add a Skills section - this is essential for ATS parsing"⟩] else []) ++
  (if !sa.education.present then
    [⟨"critical", "missing_section",
      "Add a Education section - this is essential for ATS parsing"⟩] else []) ++
  (if !sa.experience.present then
    [⟨"critical", "missing_section",
      "Add a Experience section - this is essential for ATS parsing"⟩] else []) ++
  (if !sa.objective.present then
    [⟨"important", "missing_section",
      "Consider adding a Objective section to strengthen your resume"⟩] else []) ++
  (if !sa.summary.present then
    [⟨"important", "missing_section",
      "Consider adding a Summary section to strengthen your resume"⟩] else []) ++
  (if !sa.projects.present then
    [⟨"important", "missing_section",
      "Consider adding a Projects section to strengthen your resume"⟩] else []) ++
  (if sk.skill_count < 5 then
    [⟨"critical", "skills",
      "Add more technical skills - aim for at least 8-10 relevant skills"⟩]
   else if sk.skill_count < 10 then
    [⟨"important", "skills",
      "Expand your skills section with more relevant technologies"⟩] else []) ++
  (if vb.verb_count < 3 then
    [⟨"important", "action_verbs",
      "Use stronger action verbs like 'achieved', 'led', 'implemented', 'optimized'"⟩]
   else if vb.verb_count < 6 then
    [⟨"suggested", "action_verbs",
      "Increase use of action verbs to make your accomplishments more impactful"⟩] else []) ++
  (if !cp.is_compatible then
    cp.issues.map fun issue => ⟨"important", "ats_compatibility", issue⟩ else []) ++
  ((entriesList sa).flatMap fun pr =>
    if pr.2.present && pr.2.score < 60 then
      if pr.1 = SName.experience then
        [⟨"important", "section_quality",
          "Expand your Experience section with more detailed accomplishments and metrics"⟩]
      else if pr.1 = SName.skills then
        [⟨"important", "section_quality",
          "List more specific skills and technologies in your Skills section"⟩]
      else []
    else []) ++
  (match jd with
   | none => []
   | some j =>
     (if j.missing_skills.length > 0 then
       [⟨"critical", "jd_match",
         "Add these job-relevant skills if you have them: " ++ joinTop5 j.missing_skills⟩]
      else []) ++
     (if j.overlap_percentage < 40 then
       [⟨"important", "jd_match",
         "Your resume has limited overlap with the job description - tailor it to match key requirements"⟩]
      else [])) ++
  (if ats_score < 60 then
    [⟨"important", "general", "Use a simple, clean format with clear section headings"⟩,
     ⟨"suggested", "general",
      "Avoid tables, images, and complex formatting that ATS systems may not parse correctly"⟩]
   else [])

/-- `recommendations.sort(key=lambda x: priority_order.get(x['priority'], 3))`:
Python's `list.sort` is stable, and a stable sort by a key with values in
`{0,1,2,3}` is extensionally the concatenation of the four key-filtered
sublists in key order. -/
def pySortByRank (l : List Recommendation) : List Recommendation :=
  (l.filter fun r => rank r.priority == 0) ++ (l.filter fun r => rank r.priority == 1) ++
  (l.filter fun r => rank r.priority == 2) ++ (l.filter fun r => rank r.priority == 3)

/-- `generate_recommendations(...)`: the generated rule outputs, stably
sorted by priority rank. -/
def generate_recommendations (ats_score : ℚ) (sa : SectionAnalysis)
    (sk : SkillAnalysis) (vb : VerbAnalysis) (cp : CompatResult)
    (jd : Option JdAnalysis) : List Recommendation :=
  pySortByRank (generatedRecs ats_score sa sk vb cp jd)

/-! ## Spec-side formulations -/

/-- The spec's description of the compatibility penalties: each check
contributes its fixed penalty when triggered; the two word-count penalties
are mutually exclusive. -/
def specPenalty (text : String) : Int :=
  (if specialCharCount text.data > 10 then 20 else 0) +
  (if shortLineTrigger text.data then 15 else 0) +
  (if isUpperPy text.data then 10 else 0) +
  (if wordCount text.data < 100 then 20
   else if wordCount text.data > 1500 then 10 else 0)

/-- The spec's issue list: one fixed message per triggered check, in the
fixed check order. -/
def specIssues (text : String) : List String :=
  (if specialCharCount text.data > 10 then
    ["Contains table formatting that may not parse well"] else []) ++
  (if shortLineTrigger text.data then
    ["Multiple short lines detected - avoid multi-column layouts"] else []) ++
  (if isUpperPy text.data then ["Excessive capitalization - use mixed case"] else []) ++
  (if wordCount text.data < 100 then ["Resume appears too short"]
   else if wordCount text.data > 1500 then
    ["Resume may be too long - consider condensing"] else [])

theorem specPenalty_nonneg (text : String) : 0 ≤ specPenalty text := by
  unfold specPenalty
  split_ifs <;> omega

theorem specPenalty_le_65 (text : String) : specPenalty text ≤ 65 := by
  unfold specPenalty
  split_ifs <;> omega

theorem compat_score_eq (text : String) :
    (check_ats_compatibility text).score = 100 - specPenalty text := by
  unfold check_ats_compatibility specPenalty
  dsimp only
  split_ifs <;> omega

theorem compat_score_bounds (text : String) :
    35 ≤ (check_ats_compatibility text).score ∧
      (check_ats_compatibility text).score ≤ 100 := by
  rw [compat_score_eq]
  have h1 := specPenalty_nonneg text
  have h2 := specPenalty_le_65 text
  omega

theorem compat_issues_eq (text : String) :
    (check_ats_compatibility text).issues = specIssues text := by
  unfold check_ats_compatibility specIssues
  dsimp only

theorem compat_compatible_iff (text : String) :
    ((check_ats_compatibility text).is_compatible = true ↔
      70 ≤ (check_ats_compatibility text).score) := by
  unfold check_ats_compatibility
  dsimp only
  rw [decide_eq_true_eq]
  split_ifs <;> omega

/-- C5.  The compatibility score equals 100 minus the sum of the triggered
penalties clamped to at least 0, the result is compatible iff the final
score is at least 70, and the issue list follows the fixed check order. -/
theorem C5_compatibility_formula (text : String) :
    (check_ats_compatibility text).score = max (100 - specPenalty text) 0 ∧
    ((check_ats_compatibility text).is_compatible = true ↔
      70 ≤ (check_ats_compatibility text).score) ∧
    (check_ats_compatibility text).issues = specIssues text := by
  refine ⟨?_, compat_compatible_iff text, compat_issues_eq text⟩
  have h1 := compat_score_eq text
  have h2 := specPenalty_le_65 text
  omega

/-- C10.  The triggered penalties sum to at most 65 (the two word-count
penalties are mutually exclusive), so the compatibility score is always at
least 35 and the clamp to 0 never takes effect. -/
theorem C10_penalty_bound (text : String) :
    specPenalty text ≤ 65 ∧
    (check_ats_compatibility text).score = 100 - specPenalty text ∧
    35 ≤ (check_ats_compatibility text).score := by
  refine ⟨specPenalty_le_65 text, compat_score_eq text, (compat_score_bounds text).1⟩

/-! ## C9: whole-word matching -/

/-- C9.  Skill and action-verb matching is word-boundary delimited:
`javascripting` does not match the skill `javascript` (indeed matches no
skill at all), while `I used Java.` matches the skill `java` despite the
adjacent punctuation; likewise for the action-verb matcher (`led` inside
`misled` is not matched, `led` as a word is). -/
theorem C9_whole_word_matching :
    "javascript" ∉ (calculate_skill_density "javascripting").found_skills ∧
    (calculate_skill_density "javascripting").found_skills = [] ∧
    "java" ∈ (calculate_skill_density "I used Java.").found_skills ∧
    "led" ∈ (detect_action_verbs "We led the effort.").found_verbs ∧
    (detect_action_verbs "misled").found_verbs = [] := by
  decide

/-! ## C2: duplicates in `found_skills` -/

/-- C2 counterexample.  The vocabulary entry `swift` occurs in both the
`programming` and `mobile` category lists, so the input `swift` yields
`found_skills = ["swift", "swift"]`: the output does contain duplicates, and
`skill_count = 2` differs from the cardinality 1 of the set of matched
canonical skill names. -/
theorem C2_counterexample :
    (calculate_skill_density "swift").found_skills = ["swift", "swift"] ∧
    ¬ (calculate_skill_density "swift").found_skills.Nodup ∧
    (calculate_skill_density "swift").skill_count = 2 ∧
    (calculate_skill_density "swift").found_skills.dedup.length = 1 := by
  decide

theorem count_filter_eq {α : Type} [DecidableEq α] (p : α → Bool) (a : α)
    (l : List α) : ((l.filter p).count a) = if p a then l.count a else 0 := by
  induction l with
  | nil => simp
  | cons b t ih =>
    by_cases hb : p b
    · rw [List.filter_cons_of_pos hb]
      by_cases hab : b = a
      · subst hab
        simp [List.count_cons, ih, hb]
      · rw [List.count_cons_of_ne (by exact fun h => hab h.symm),
          List.count_cons_of_ne (by exact fun h => hab h.symm), ih]
    · rw [List.filter_cons_of_neg hb]
      by_cases hab : b = a
      · subst hab
        simp [List.count_cons, ih, hb]
      · rw [List.count_cons_of_ne (by exact fun h => hab h.symm), ih]

/-- C2 amended.  `found_skills` lists every matched entry of the flat
vocabulary with the multiplicity it has there — so a skill listed under two
categories (`swift`, `kotlin`) appears twice when matched — and
`skill_count` is the length of `found_skills`, duplicates included. -/
theorem C2_found_skills_multiplicity (text : String) (s : String) :
    (calculate_skill_density text).skill_count =
      (calculate_skill_density text).found_skills.length ∧
    (calculate_skill_density text).found_skills.count s =
      (if wbSearch s.data (lowerL text.data) then allSkills.count s else 0) := by
  constructor
  · rfl
  · unfold calculate_skill_density
    dsimp only
    rw [count_filter_eq]

/-! ## C1: number of section entries in the final output -/

/-- C1 counterexample.  For a résumé text with no recognizable section
headers (so in particular all four optional sections are absent),
`generate_section_scores` drops the absent optional sections and the final
`sections` object has 6 entries, not 10. -/
theorem C1_counterexample :
    (generate_section_scores (analyze_sections (detect_sections
      "An experienced engineer who enjoys building data tools"))).length = 6 ∧
    (generate_section_scores (analyze_sections (detect_sections
      "An experienced engineer who enjoys building data tools"))).length ≠ 10 := by
  decide

theorem mkEntry_importance (n : SName) (c : String) :
    (mkEntry n c).importance = importanceOf n := rfl

/-- C1 amended.  The `sections` object of the final output always contains
the six critical/important sections (skills, education, experience,
objective, summary, projects), and contains an optional section
(internships, achievements, certifications, contact) exactly when that
section is present; hence its size is 6 plus the number of present optional
sections — 10 only when all four optional sections are present.
(`detect_sections` itself does always return all ten entries, one per name:
it is `generate_section_scores` that filters.) -/
theorem C1_sections_output_count (s : Sections) :
    (generate_section_scores (analyze_sections s)).length =
      6 + ([(analyze_sections s).internships.present,
            (analyze_sections s).achievements.present,
            (analyze_sections s).certifications.present,
            (analyze_sections s).contact.present].countP id) := by
  show (generate_section_scores (analyze_sections s)).length =
    6 + ([(mkEntry .internships s.internships).present,
          (mkEntry .achievements s.achievements).present,
          (mkEntry .certifications s.certifications).present,
          (mkEntry .contact s.contact).present].countP id)
  cases h1 : (mkEntry .internships s.internships).present <;>
    cases h2 : (mkEntry .achievements s.achievements).present <;>
      cases h3 : (mkEntry .certifications s.certifications).present <;>
        cases h4 : (mkEntry .contact s.contact).present <;>
          simp [generate_section_scores, entriesList, analyze_sections,
            mkEntry_importance, importanceOf, h1, h2, h3, h4, List.countP_cons]

/-! ## C3: the ATS score formula -/

/-- The spec's section-completeness term: a weighted mean over the ten
sections, weight 10 for skills/education/experience, 5 for
objective/summary/projects, 2 for the rest, using each section's quality
score and 0 for absent sections. -/
def specSectionCompleteness (sa : SectionAnalysis) : ℚ :=
  (10 * ((if sa.skills.present then (sa.skills.score : ℚ) else 0) +
         (if sa.education.present then (sa.education.score : ℚ) else 0) +
         (if sa.experience.present then (sa.experience.score : ℚ) else 0)) +
   5 * ((if sa.objective.present then (sa.objective.score : ℚ) else 0) +
        (if sa.summary.present then (sa.summary.score : ℚ) else 0) +
        (if sa.projects.present then (sa.projects.score : ℚ) else 0)) +
   2 * ((if sa.internships.present then (sa.internships.score : ℚ) else 0) +
        (if sa.achievements.present then (sa.achievements.score : ℚ) else 0) +
        (if sa.certifications.present then (sa.certifications.score : ℚ) else 0) +
        (if sa.contact.present then (sa.contact.score : ℚ) else 0))) / 53

theorem mkEntry_score_of_absent (n : SName) (c : String)
    (h : (mkEntry n c).present = false) : (mkEntry n c).score = 0 := by
  unfold mkEntry at *
  dsimp only at *
  rw [h]
  rfl

/-- For entries produced by `analyze_sections`, guarding the score by the
presence flag is redundant: absent sections already score 0. -/
theorem mkEntry_if_present (n : SName) (c : String) :
    (if (mkEntry n c).present then ((mkEntry n c).score : ℚ) else 0) =
      ((mkEntry n c).score : ℚ) := by
  cases h : (mkEntry n c).present
  · simp [mkEntry_score_of_absent n c h]
  · simp

theorem ats_score_eq_specFormula (s : Sections) (sk : SkillAnalysis)
    (vb : VerbAnalysis) (cp : CompatResult) :
    calculate_ats_score (analyze_sections s) sk vb cp =
      round2 ((0.30 : ℚ) * specSectionCompleteness (analyze_sections s) +
        (0.25 : ℚ) * (sk.density_score : ℚ) + (0.20 : ℚ) * (vb.verb_score : ℚ) +
        (0.25 : ℚ) * (cp.score : ℚ)) := by
  unfold calculate_ats_score specSectionCompleteness
  simp only [entriesList, analyze_sections, List.foldl, weightOf, mkEntry_if_present]
  norm_num
  ring_nf

/-- C3.  For every sections dictionary and every skill, verb and
compatibility result, the ATS score equals 0.30 times the spec's weighted
mean of the ten section quality scores (score 0 for absent sections) plus
0.25 times the skill density score plus 0.20 times the action verb score
plus 0.25 times the compatibility score, rounded to two decimals. -/
theorem C3_ats_score_formula (s : Sections) (sk : SkillAnalysis)
    (vb : VerbAnalysis) (cp : CompatResult) :
    calculate_ats_score (analyze_sections s) sk vb cp =
      round2 ((0.30 : ℚ) * specSectionCompleteness (analyze_sections s) +
        (0.25 : ℚ) * (sk.density_score : ℚ) + (0.20 : ℚ) * (vb.verb_score : ℚ) +
        (0.25 : ℚ) * (cp.score : ℚ)) :=
  ats_score_eq_specFormula s sk vb cp

/-! ## C4: every score lies in [0, 100] -/

theorem density_score_bounds (text : String) :
    30 ≤ (calculate_skill_density text).density_score ∧
      (calculate_skill_density text).density_score ≤ 95 := by
  unfold calculate_skill_density
  dsimp only
  split_ifs <;> omega

theorem verb_score_bounds (text : String) :
    30 ≤ (detect_action_verbs text).verb_score ∧
      (detect_action_verbs text).verb_score ≤ 95 := by
  unfold detect_action_verbs
  dsimp only
  split_ifs <;> omega

theorem mkEntry_score_le (n : SName) (c : String) : (mkEntry n c).score ≤ 90 := by
  cases n <;>
    (simp only [mkEntry, sectionQuality]; split_ifs <;> omega)

theorem specCompleteness_bounds (s : Sections) :
    0 ≤ specSectionCompleteness (analyze_sections s) ∧
      specSectionCompleteness (analyze_sections s) ≤ 100 := by
  unfold specSectionCompleteness
  simp only [analyze_sections, mkEntry_if_present]
  have bq : ∀ (n : SName) (c : String),
      (0 : ℚ) ≤ ((mkEntry n c).score : ℚ) ∧ ((mkEntry n c).score : ℚ) ≤ 90 := by
    intro n c
    constructor
    · positivity
    · exact_mod_cast mkEntry_score_le n c
  obtain ⟨a0, a1⟩ := bq .skills s.skills
  obtain ⟨b0, b1⟩ := bq .education s.education
  obtain ⟨c0, c1⟩ := bq .experience s.experience
  obtain ⟨d0, d1⟩ := bq .objective s.objective
  obtain ⟨e0, e1⟩ := bq .summary s.summary
  obtain ⟨f0, f1⟩ := bq .projects s.projects
  obtain ⟨g0, g1⟩ := bq .internships s.internships
  obtain ⟨h0, h1⟩ := bq .achievements s.achievements
  obtain ⟨i0, i1⟩ := bq .certifications s.certifications
  obtain ⟨j0, j1⟩ := bq .contact s.contact
  constructor
  · positivity
  · rw [div_le_iff₀ (by norm_num : (0:ℚ) < 53)]
    linarith

theorem ats_score_bounds_general (s : Sections) (sk : SkillAnalysis)
    (vb : VerbAnalysis) (cp : CompatResult)
    (hd : 30 ≤ sk.density_score ∧ sk.density_score ≤ 95)
    (hv : 30 ≤ vb.verb_score ∧ vb.verb_score ≤ 95)
    (hp : 35 ≤ cp.score ∧ cp.score ≤ 100) :
    0 ≤ calculate_ats_score (analyze_sections s) sk vb cp ∧
      calculate_ats_score (analyze_sections s) sk vb cp ≤ 100 := by
  rw [ats_score_eq_specFormula]
  obtain ⟨hc0, hc1⟩ := specCompleteness_bounds s
  have hdq0 : (30 : ℚ) ≤ (sk.density_score : ℚ) := by exact_mod_cast hd.1
  have hdq1 : (sk.density_score : ℚ) ≤ 95 := by exact_mod_cast hd.2
  have hvq0 : (30 : ℚ) ≤ (vb.verb_score : ℚ) := by exact_mod_cast hv.1
  have hvq1 : (vb.verb_score : ℚ) ≤ 95 := by exact_mod_cast hv.2
  have hpq0 : (35 : ℚ) ≤ (cp.score : ℚ) := by exact_mod_cast hp.1
  have hpq1 : (cp.score : ℚ) ≤ 100 := by exact_mod_cast hp.2
  constructor
  · exact round2_nonneg (by nlinarith)
  · have harg : (0.30 : ℚ) * specSectionCompleteness (analyze_sections s) +
        (0.25 : ℚ) * (sk.density_score : ℚ) + (0.20 : ℚ) * (vb.verb_score : ℚ) +
        (0.25 : ℚ) * (cp.score : ℚ) ≤ ((100 : Int) : ℚ) := by
      push_cast
      nlinarith
    simpa using round2_le_intBound harg

theorem analyze_resume_ats_score_bounds (text : String) :
    0 ≤ analyze_resume_ats_score text ∧ analyze_resume_ats_score text ≤ 100 := by
  unfold analyze_resume_ats_score
  exact ats_score_bounds_general (detect_sections text)
    (calculate_skill_density (normalize_skills text)) (detect_action_verbs text)
    (check_ats_compatibility text) (density_score_bounds (normalize_skills text))
    (verb_score_bounds text) (compat_score_bounds text)

theorem overlap_percentage_bounds (rt jt : String) :
    0 ≤ (find_skill_overlap rt jt).overlap_percentage ∧
      (find_skill_overlap rt jt).overlap_percentage ≤ 100 := by
  unfold find_skill_overlap
  dsimp only
  split_ifs with h
  · set jd := (allSkills.filter fun s => wbSearch s.data (lowerL jt.data)).dedup with hjd
    set m := (jd.filter fun s =>
      s ∈ (allSkills.filter fun s => wbSearch s.data (lowerL rt.data)).dedup).length with hm
    have hmj : m ≤ jd.length := by
      rw [hm]
      exact List.length_filter_le _ _
    have hj0 : (0 : ℚ) < (jd.length : ℚ) := by exact_mod_cast h
    have harg0 : (0 : ℚ) ≤ (m : ℚ) / (jd.length : ℚ) * 100 := by positivity
    have harg1 : (m : ℚ) / (jd.length : ℚ) * 100 ≤ ((100 : Int) : ℚ) := by
      have : (m : ℚ) / (jd.length : ℚ) ≤ 1 := by
        rw [div_le_one hj0]
        exact_mod_cast hmj
      push_cast
      nlinarith
    exact ⟨round2_nonneg harg0, by simpa using round2_le_intBound harg1⟩
  · norm_num

/-- C4.  The pipeline's ATS score always lies in [0, 100], and — given the
TF-IDF similarity produced by the external vectorizer lies in [0, 100],
which cosine similarity of nonnegative vectors (or the error fallback 0)
guarantees — the job-description match score also lies in [0, 100]. -/
theorem C4_scores_in_range (text rt jt : String) (tfidf : ℚ)
    (ht0 : 0 ≤ tfidf) (ht1 : tfidf ≤ 100) :
    (0 ≤ analyze_resume_ats_score text ∧ analyze_resume_ats_score text ≤ 100) ∧
    (0 ≤ calculate_jd_match tfidf (find_skill_overlap rt jt) ∧
      calculate_jd_match tfidf (find_skill_overlap rt jt) ≤ 100) := by
  refine ⟨analyze_resume_ats_score_bounds text, ?_, ?_⟩
  all_goals
    unfold calculate_jd_match
    obtain ⟨ho0, ho1⟩ := overlap_percentage_bounds rt jt
  · exact round2_nonneg (by nlinarith)
  · have harg : tfidf * 0.60 + (find_skill_overlap rt jt).overlap_percentage * 0.40 ≤
        ((100 : Int) : ℚ) := by
      push_cast
      nlinarith
    simpa using round2_le_intBound harg

/-- Witness for C4 at concrete inputs. -/
theorem C4_scores_in_range_witness :
    (0 ≤ (50 : ℚ) ∧ (50 : ℚ) ≤ 100) ∧
    ((0 ≤ analyze_resume_ats_score "Led a team." ∧
        analyze_resume_ats_score "Led a team." ≤ 100) ∧
      (0 ≤ calculate_jd_match 50 (find_skill_overlap "python" "sql") ∧
        calculate_jd_match 50 (find_skill_overlap "python" "sql") ≤ 100)) :=
  ⟨⟨by norm_num, by norm_num⟩,
    C4_scores_in_range "Led a team." "python" "sql" 50 (by norm_num) (by norm_num)⟩

/-! ## C6: skill overlap percentage -/

/-- Two `Nodup` lists over a `DecidableEq` type with the same members have
the same length. -/
theorem length_eq_of_nodup_of_mem_iff {α : Type} [DecidableEq α]
    {l₁ l₂ : List α} (h₁ : l₁.Nodup) (h₂ : l₂.Nodup)
    (h : ∀ a, a ∈ l₁ ↔ a ∈ l₂) : l₁.length = l₂.length := by
  have ht : l₁.toFinset = l₂.toFinset := by
    apply Finset.ext
    intro a
    simp only [List.mem_toFinset]
    exact h a
  calc l₁.length = l₁.toFinset.card := (List.toFinset_card_of_nodup h₁).symm
    _ = l₂.toFinset.card := by rw [ht]
    _ = l₂.length := List.toFinset_card_of_nodup h₂

/-- C6.  The overlap percentage is the number of skills matched in both
texts divided by the number of (distinct) skills matched in the job
description, times 100, rounded to two decimals — and 0 (not an error) when
the job description contains zero recognized skills. -/
theorem C6_overlap_formula (rt jt : String) :
    (find_skill_overlap rt jt).overlap_percentage =
      (if (find_skill_overlap rt jt).jd_skills.length = 0 then 0
       else round2 (((find_skill_overlap rt jt).matching_skills.length : ℚ) /
         ((find_skill_overlap rt jt).jd_skills.length : ℚ) * 100)) ∧
    (find_skill_overlap rt jt).matching_skills.length =
      (allSkills.dedup.filter fun sk =>
        wbSearch sk.data (lowerL rt.data) && wbSearch sk.data (lowerL jt.data)).length ∧
    (find_skill_overlap rt jt).jd_skills.length =
      (allSkills.dedup.filter fun sk => wbSearch sk.data (lowerL jt.data)).length := by
  refine ⟨?_, ?_, ?_⟩
  · unfold find_skill_overlap
    dsimp only
    split_ifs with h1 h2 h2 <;> first | rfl | omega
  · apply length_eq_of_nodup_of_mem_iff
    · exact (List.nodup_dedup _).filter _
    · exact (List.nodup_dedup _).filter _
    · intro a
      unfold find_skill_overlap
      simp only [List.mem_filter, List.mem_dedup, Bool.and_eq_true, decide_eq_true_eq]
      tauto
  · apply length_eq_of_nodup_of_mem_iff
    · exact List.nodup_dedup _
    · exact (List.nodup_dedup _).filter _
    · intro a
      unfold find_skill_overlap
      simp only [List.mem_filter, List.mem_dedup, Bool.and_eq_true, decide_eq_true_eq]

/-! ## C8: recommendation ordering -/

theorem rank_le_three (p : String) : rank p ≤ 3 := by
  unfold rank
  split_ifs <;> omega

theorem mem_filter_rank {l : List Recommendation} {k : Nat} {r : Recommendation}
    (h : r ∈ l.filter fun r => rank r.priority == k) : rank r.priority = k := by
  have := (List.mem_filter.mp h).2
  simpa using this

theorem pairwise_rank_filter (l : List Recommendation) (k : Nat) :
    List.Pairwise (fun a b => rank a.priority ≤ rank b.priority)
      (l.filter fun r => rank r.priority == k) := by
  apply List.pairwise_of_forall_mem_list
  intro a ha b hb
  rw [mem_filter_rank ha, mem_filter_rank hb]

theorem pySort_sorted (l : List Recommendation) :
    List.Sorted (fun a b => rank a.priority ≤ rank b.priority) (pySortByRank l) := by
  unfold pySortByRank
  have cross : ∀ k₁ k₂ : Nat, k₁ ≤ k₂ →
      ∀ a ∈ (l.filter fun r => rank r.priority == k₁),
      ∀ b ∈ (l.filter fun r => rank r.priority == k₂),
      rank a.priority ≤ rank b.priority := by
    intro k₁ k₂ hk a ha b hb
    rw [mem_filter_rank ha, mem_filter_rank hb]
    exact hk
  rw [List.Sorted, List.pairwise_append, List.pairwise_append, List.pairwise_append]
  refine ⟨⟨⟨pairwise_rank_filter l 0, pairwise_rank_filter l 1,
    cross 0 1 (by omega)⟩, pairwise_rank_filter l 2, ?_⟩,
    pairwise_rank_filter l 3, ?_⟩
  · intro a ha b hb
    rcases List.mem_append.mp ha with ha | ha
    · exact cross 0 2 (by omega) a ha b hb
    · exact cross 1 2 (by omega) a ha b hb
  · intro a ha b hb
    rcases List.mem_append.mp ha with ha | ha
    · rcases List.mem_append.mp ha with ha | ha
      · exact cross 0 3 (by omega) a ha b hb
      · exact cross 1 3 (by omega) a ha b hb
    · exact cross 2 3 (by omega) a ha b hb

theorem filter_rank_pair (l : List Recommendation) (k j : Nat) (h : k ≠ j) :
    (l.filter fun r => (rank r.priority == k) && (rank r.priority == j)) = [] := by
  rw [List.filter_eq_nil_iff]
  intro a _
  simp only [Bool.and_eq_true, beq_iff_eq]
  omega

theorem filter_rank_self (l : List Recommendation) (k : Nat) :
    (l.filter fun r => (rank r.priority == k) && (rank r.priority == k)) =
      (l.filter fun r => rank r.priority == k) := by
  apply List.filter_congr
  intro a _
  rw [Bool.and_self]

theorem pySort_filter (l : List Recommendation) (k : Nat) :
    ((pySortByRank l).filter fun r => rank r.priority == k) =
      (l.filter fun r => rank r.priority == k) := by
  unfold pySortByRank
  rw [List.filter_append, List.filter_append, List.filter_append,
    List.filter_filter, List.filter_filter, List.filter_filter, List.filter_filter]
  rcases Nat.lt_or_ge k 4 with hk | hk
  · interval_cases k <;>
      simp [filter_rank_pair, filter_rank_self]
  · have hnil : (l.filter fun r => rank r.priority == k) = [] := by
      rw [List.filter_eq_nil_iff]
      intro a _
      have := rank_le_three a.priority
      simp only [beq_iff_eq]
      omega
    rw [hnil]
    rw [filter_rank_pair l k 0 (by omega), filter_rank_pair l k 1 (by omega),
      filter_rank_pair l k 2 (by omega), filter_rank_pair l k 3 (by omega)]
    rfl

/-- C8.  The recommendation list is sorted by priority rank (critical = 0,
important = 1, suggested = 2, anything else = 3), and within each priority
tier the recommendations appear exactly in the order the fixed rule sequence
generated them (stable sort). -/
theorem C8_recommendations_sorted_stable (ats_score : ℚ) (sa : SectionAnalysis)
    (sk : SkillAnalysis) (vb : VerbAnalysis) (cp : CompatResult)
    (jd : Option JdAnalysis) :
    List.Sorted (fun a b => rank a.priority ≤ rank b.priority)
      (generate_recommendations ats_score sa sk vb cp jd) ∧
    ∀ k : Nat,
      ((generate_recommendations ats_score sa sk vb cp jd).filter
        fun r => rank r.priority == k) =
      ((generatedRecs ats_score sa sk vb cp jd).filter
        fun r => rank r.priority == k) :=
  ⟨pySort_sorted _, fun k => pySort_filter _ k⟩

/-! ## C7: last match wins in `detect_sections` -/

theorem getSection_setSection_same (s : Sections) (n : SName) (v : String) :
    getSection (setSection s n v) n = v := by
  cases n <;> rfl

theorem getSection_setSection_ne (s : Sections) (n m : SName) (v : String)
    (h : n ≠ m) : getSection (setSection s n v) m = getSection s m := by
  cases n <;> cases m <;> first | rfl | exact absurd rfl h

/-- Overwriting fold: after assigning every `(index, (pos, name))` entry in
order, a name holds the value of its last occurrence. -/
theorem foldl_set_getLast (f : Nat → String) (l : List (Nat × (Nat × SName)))
    (init : Sections) (name : SName) :
    getSection (l.foldl (fun secs pr => setSection secs pr.2.2 (f pr.1)) init) name =
      (match (l.filter fun pr => pr.2.2 == name).getLast? with
       | some pr => f pr.1
       | none => getSection init name) := by
  induction l generalizing init with
  | nil => rfl
  | cons a t ih =>
    rw [List.foldl_cons, ih]
    by_cases ha : (a.2.2 == name) = true
    · have hstep : ((a :: t).filter fun pr => pr.2.2 == name) =
          a :: (t.filter fun pr => pr.2.2 == name) := by
        rw [List.filter_cons, if_pos ha]
      rw [hstep]
      have haeq : a.2.2 = name := by simpa using ha
      cases hft : (t.filter fun pr => pr.2.2 == name) with
      | nil =>
        simp only [List.getLast?_nil, List.getLast?_singleton]
        rw [haeq, getSection_setSection_same]
      | cons b bs =>
        rw [List.getLast?_eq_getLast_of_ne_nil (List.cons_ne_nil b bs),
          List.getLast?_cons_cons,
          List.getLast?_eq_getLast_of_ne_nil (List.cons_ne_nil b bs)]
    · have hstep : ((a :: t).filter fun pr => pr.2.2 == name) =
          (t.filter fun pr => pr.2.2 == name) := by
        rw [List.filter_cons, if_neg ha]
      rw [hstep]
      have hane : a.2.2 ≠ name := by simpa using ha
      cases hft : (t.filter fun pr => pr.2.2 == name).getLast? with
      | some pr => rfl
      | none => exact getSection_setSection_ne init a.2.2 name (f a.1) hane

theorem mem_of_getLast?_eq {α : Type} {l : List α} {a : α}
    (h : l.getLast? = some a) : a ∈ l := by
  have hmem : a ∈ l.getLast? := Option.mem_def.mpr h
  obtain ⟨hne, heq⟩ := List.mem_getLast?_eq_getLast hmem
  rw [heq]
  exact List.getLast_mem hne

/-- The first components of `l.enum` are strictly increasing. -/
theorem enum_pairwise_fst {α : Type} (l : List α) :
    List.Pairwise (fun a b => a.1 < b.1) l.enum := by
  have h := List.pairwise_lt_range l.length
  rw [← List.enum_map_fst l] at h
  exact List.pairwise_map.mp h

/-- In a `Pairwise R` list, every member is the last element or relates to
it. -/
theorem pairwise_getLast?_max {α : Type} {R : α → α → Prop} :
    ∀ {l : List α}, List.Pairwise R l → ∀ x ∈ l, ∀ y, l.getLast? = some y →
      x = y ∨ R x y := by
  intro l
  induction l with
  | nil =>
    intro _ x hx
    cases hx
  | cons a t ih =>
    intro hp x hx y hy
    cases t with
    | nil =>
      rw [List.getLast?_singleton] at hy
      rcases List.mem_singleton.mp hx with rfl
      left
      exact Option.some_inj.mp hy
    | cons b bs =>
      rw [List.getLast?_cons_cons] at hy
      rcases List.mem_cons.mp hx with rfl | hx'
      · right
        exact (List.pairwise_cons.mp hp).1 y (mem_of_getLast?_eq hy)
      · exact ih (List.pairwise_cons.mp hp).2 x hx' y hy

/-- The last `(index, (position, name))` entry of the sorted match list
carrying the given section name. -/
def lastNameMatch (text : String) (name : SName) : Option (Nat × (Nat × SName)) :=
  ((sortedMatches text).enum.filter fun pr => pr.2.2 == name).getLast?

/-- C7.  When a section's header pattern matches at several positions, the
section segmenter records the content belonging to the match at the greatest
position: the recorded content is the one computed for the last sorted
occurrence of the name, whose position `p` dominates the position of every
match of that name (last-match-wins under the plain-overwrite fold). -/
theorem C7_last_match_wins (text : String) (name : SName) (i p : Nat)
    (h : lastNameMatch text name = some (i, (p, name))) :
    getSection (detect_sections text) name =
      contentFor text (sortedMatches text) i ∧
    ∀ q : Nat, (q, name) ∈ sortedMatches text → q ≤ p := by
  constructor
  · unfold detect_sections
    rw [foldl_set_getLast (contentFor text (sortedMatches text))]
    unfold lastNameMatch at h
    rw [h]
  · intro q hq
    obtain ⟨j, hj⟩ := List.mem_iff_get?.mp hq
    have hjmem : (j, (q, name)) ∈ (sortedMatches text).enum := by
      rw [List.mem_enum_iff_get?]
      exact hj
    have hjfil : (j, (q, name)) ∈
        ((sortedMatches text).enum.filter fun pr => pr.2.2 == name) :=
      List.mem_filter.mpr ⟨hjmem, by simp⟩
    have hpw : List.Pairwise (fun a b : Nat × (Nat × SName) => a.1 < b.1)
        ((sortedMatches text).enum.filter fun pr => pr.2.2 == name) :=
      List.Pairwise.sublist (List.filter_sublist _) (enum_pairwise_fst _)
    unfold lastNameMatch at h
    rcases pairwise_getLast?_max hpw _ hjfil _ h with heq | hlt
    · cases heq
      exact le_refl p
    · have himem : (i, (p, name)) ∈ (sortedMatches text).enum :=
        List.mem_of_mem_filter (mem_of_getLast?_eq h)
      have hi : (sortedMatches text).get? i = some (p, name) :=
        List.mem_enum_iff_get?.mp himem
      have hsorted : List.Sorted pairLe (sortedMatches text) :=
        List.sorted_insertionSort pairLe _
      obtain ⟨hjlt, hjget⟩ := List.get?_eq_some.mp hj
      obtain ⟨hilt, higet⟩ := List.get?_eq_some.mp hi
      have hrel := List.pairwise_iff_get.mp hsorted ⟨j, hjlt⟩ ⟨i, hilt⟩ hlt
      rw [hjget, higet] at hrel
      unfold pairLe at hrel
      rcases hrel with hlt' | ⟨heq', _⟩
      · exact Nat.le_of_lt hlt'
      · exact Nat.le_of_eq heq'

/-- Witness for C7: a résumé with two `skills` headers; the content of the
later one (position 14) is recorded. -/
theorem C7_last_match_wins_witness :
    lastNameMatch "skills:\npython\nskills:\njava" SName.skills =
        some (1, (14, SName.skills)) ∧
    (getSection (detect_sections "skills:\npython\nskills:\njava") SName.skills =
        contentFor "skills:\npython\nskills:\njava"
          (sortedMatches "skills:\npython\nskills:\njava") 1 ∧
      ∀ q : Nat, (q, SName.skills) ∈ sortedMatches "skills:\npython\nskills:\njava" →
        q ≤ 14) :=
  ⟨by decide,
    C7_last_match_wins "skills:\npython\nskills:\njava" SName.skills 1 14 (by decide)⟩

end ATS
